import Mathlib

/-!
Verification of the `useSoundEffect` hook
(`src/packages/useSoundEffect/src/index.ts`).

The hook drives timed playback of one audio clip: cropping
(`startFrom`/`stopAt`), linear fades at the edges (`transitionStart`/
`transitionEnd`), random re-play scheduling (`playRandomly`,
`minInterval`/`maxInterval`) and live volume adjustment.

The shallow embedding below translates the hook's state
(`audioRef`, `intervalRef`, `fadeIntervalRef`, `isPlaying`,
`currentVolume`) into an explicit record, its callbacks into pure
state-transition functions, and the primitive audio operations the hook
emits (pause, create, set volume, play, clear timers) into an explicit
trace, so that ordering properties can be stated.  Volumes and times are
rationals.  Audio elements are identified by fresh natural-number ids;
an element is "live" when it has been created and is not paused.
-/

set_option maxRecDepth 8000

namespace UseSoundEffect

/-- `Math.min(1, Math.max(0, v))`, the clamp the source applies to volumes. -/
def clamp01 (v : ℚ) : ℚ := min 1 (max 0 v)

/-- One `HTMLAudioElement` created by the hook: its identity, whether it is
paused (a fresh element starts paused; `play()` unpauses it), and its
volume property. -/
structure AudioElem where
  id : Nat
  paused : Bool
  volume : ℚ
  deriving DecidableEq, Repr

/-- The resolved configuration, after the destructuring defaults at the top
of `useSoundEffect` (source lines 254-266). -/
structure Config where
  volume : ℚ := 1
  preload : Bool := true
  loop : Bool := false
  playRandomly : Bool := false
  minInterval : ℚ := 5000
  maxInterval : ℚ := 15000
  autoplay : Bool := false
  startFrom : ℚ := 0
  stopAt : Option ℚ := none
  transitionStart : ℚ := 0
  transitionEnd : ℚ := 0
  deriving DecidableEq, Repr

/-- The raw options object passed by the caller; `none` means the field was
omitted. -/
structure SoundEffectOptions where
  volume : Option ℚ := none
  preload : Option Bool := none
  loop : Option Bool := none
  playRandomly : Option Bool := none
  minInterval : Option ℚ := none
  maxInterval : Option ℚ := none
  autoplay : Option Bool := none
  startFrom : Option ℚ := none
  stopAt : Option ℚ := none
  transitionStart : Option ℚ := none
  transitionEnd : Option ℚ := none
  deriving DecidableEq, Repr

/-- Construction-time option resolution: exactly the destructuring with
defaults performed by `useSoundEffect` (source lines 254-266).  The hook
body contains no validation of any kind: every options object resolves to
a configuration and construction proceeds. -/
def resolveConfig (o : SoundEffectOptions) : Config where
  volume := o.volume.getD 1
  preload := o.preload.getD true
  loop := o.loop.getD false
  playRandomly := o.playRandomly.getD false
  minInterval := o.minInterval.getD 5000
  maxInterval := o.maxInterval.getD 15000
  autoplay := o.autoplay.getD false
  startFrom := o.startFrom.getD 0
  stopAt := o.stopAt
  transitionStart := o.transitionStart.getD 0
  transitionEnd := o.transitionEnd.getD 0

/-- Modelled from the spec (sections 3 and 7; the source has no
corresponding code): a configuration is valid when `transitionEnd` does
not exceed `stopAt - startFrom` (if `stopAt` is set) and
`minInterval ≤ maxInterval`.  The spec demands that a violation be
surfaced as a synchronous configuration error at construction. -/
def configValid (c : Config) : Bool :=
  (match c.stopAt with
   | some sa => decide (c.transitionEnd ≤ sa - c.startFrom)
   | none => true)
  && decide (c.minInterval ≤ c.maxInterval)

/-- The hook's mutable state: the refs (`audioRef`, `intervalRef` for the
random schedule, `fadeIntervalRef`), the two `useState` cells, the
mounted flag, plus bookkeeping that makes element and timer identities
explicit (`audios` records every element created so far; fresh ids come
from the counters). -/
structure HookState where
  audios : List AudioElem
  audioRef : Option Nat
  intervalRef : Option Nat
  fadeIntervalRef : Option Nat
  isPlaying : Bool
  currentVolume : ℚ
  isMounted : Bool
  nextAudioId : Nat
  nextTimerId : Nat
  deriving DecidableEq, Repr

/-- Primitive operations the hook performs on the host audio/timer
primitives, recorded as a trace so ordering can be reasoned about. -/
inductive AudioOp where
  | pause (id : Nat)
  | clearIntervalTimer (h : Nat)
  | clearFadeTimer (h : Nat)
  | create (id : Nat)
  | setCurrentTime (id : Nat) (t : ℚ)
  | setVolume (id : Nat) (v : ℚ)
  | playCall (id : Nat)
  deriving DecidableEq, Repr

/-- Set `paused := true` on the element with the given id
(`audioRef.current.pause()`). -/
def pauseAudio (audios : List AudioElem) (i : Nat) : List AudioElem :=
  audios.map fun a => if a.id = i then { a with paused := true } else a

/-- Set `paused := false` on the element with the given id (a successful
`audio.play()`). -/
def unpauseAudio (audios : List AudioElem) (i : Nat) : List AudioElem :=
  audios.map fun a => if a.id = i then { a with paused := false } else a

/-- Write the volume property of the element with the given id
(`audio.volume = v`). -/
def writeAudioVolume (audios : List AudioElem) (i : Nat) (v : ℚ) : List AudioElem :=
  audios.map fun a => if a.id = i then { a with volume := v } else a

/-- The audio-element effect of `cleanup`: `audioRef.current.pause()` when
an element is held. -/
def cleanupAudios (s : HookState) : List AudioElem :=
  match s.audioRef with
  | some i => pauseAudio s.audios i
  | none => s.audios

/-- The primitive-operation trace of `cleanup`, in source order: pause the
held element, clear the random-interval timeout, clear the fade
interval. -/
def cleanupTrace (s : HookState) : List AudioOp :=
  (match s.audioRef with
   | some i => [AudioOp.pause i]
   | none => []) ++
  (match s.intervalRef with
   | some h => [AudioOp.clearIntervalTimer h]
   | none => []) ++
  (match s.fadeIntervalRef with
   | some h => [AudioOp.clearFadeTimer h]
   | none => [])

/-- `cleanup` (source lines 282-296): pause and release the current audio
element, clear the random-interval timeout, clear the fade interval, and
set `isPlaying` to false.  Returns the new state and the trace of
primitive operations. -/
def cleanup (s : HookState) : HookState × List AudioOp :=
  ({ s with
      audios := cleanupAudios s
      audioRef := none
      intervalRef := none
      fadeIntervalRef := none
      isPlaying := false },
   cleanupTrace s)

/-- `stopSoundEffect` (source lines 304-306): a wrapper around `cleanup`. -/
def stopSoundEffect (s : HookState) : HookState × List AudioOp :=
  cleanup s

/-- External outcomes of one `playSoundEffect` call: whether the `Audio`
constructor throws, and whether the host later rejects the `play()`
promise (a rejected play never unpauses the element; the rejection
handler fires asynchronously as `playRejectHandler`). -/
structure PlayEnv where
  ctorThrows : Bool := false
  playRejects : Bool := false
  deriving DecidableEq, Repr

/-- `playSoundEffect` (source lines 369-443): if unmounted, return; run
`cleanup`; then inside try/catch create a fresh `Audio`, store it in
`audioRef`, set `currentTime := startFrom` and the loop flag, set the
initial volume (0 when a fade-in is configured, else the clamped current
volume), set `isPlaying := true`, attach the listeners, call `play()`,
and when `transitionStart > 0` start the fade-in timer (`applyFade`
creates an interval since its duration is positive).  A constructor
throw is caught and answered with another `cleanup`. -/
def playSoundEffect (cfg : Config) (env : PlayEnv) (s : HookState) :
    HookState × List AudioOp :=
  if s.isMounted = false then (s, [])
  else
    let s1 := (cleanup s).1
    let tr1 := (cleanup s).2
    if env.ctorThrows then
      ((cleanup s1).1, tr1 ++ (cleanup s1).2)
    else
      let newId := s1.nextAudioId
      let audios2 := s1.audios ++ [{ id := newId, paused := true, volume := 1 }]
      let targetVolume := clamp01 s1.currentVolume
      let initVol := if 0 < cfg.transitionStart then 0 else targetVolume
      let audios3 := writeAudioVolume audios2 newId initVol
      let audios4 := if env.playRejects then audios3 else unpauseAudio audios3 newId
      let fadeOn := 0 < cfg.transitionStart
      ({ s1 with
          audios := audios4
          audioRef := some newId
          isPlaying := true
          fadeIntervalRef := if fadeOn then some s1.nextTimerId else none
          nextAudioId := newId + 1
          nextTimerId := if fadeOn then s1.nextTimerId + 1 else s1.nextTimerId },
       tr1 ++ [AudioOp.create newId, AudioOp.setCurrentTime newId cfg.startFrom,
               AudioOp.setVolume newId initVol, AudioOp.playCall newId])

/-- The `error` listener registered on the audio element (source lines
424-427): log and `cleanup`. -/
def audioErrorHandler (s : HookState) : HookState × List AudioOp :=
  cleanup s

/-- The `.catch` handler of the `play()` promise (source lines 430-433):
log and `cleanup`. -/
def playRejectHandler (s : HookState) : HookState × List AudioOp :=
  cleanup s

/-- The `ended` listener (source lines 417-421): tear down only when the
element that fired is still the current one and `loop` is off. -/
def endedHandler (firingId : Nat) (loopFlag : Bool) (s : HookState) :
    HookState × List AudioOp :=
  if s.audioRef = some firingId ∧ loopFlag = false then cleanup s else (s, [])

/-- `handleTimeUpdate` (source lines 396-412), fired by the host on each
position tick of the session's element `audioId` at position `t`.  The
source guards with `if (!stopAt) return`, which is also taken when
`stopAt` is 0 (JavaScript falsiness).  `shouldStop` is checked first;
only otherwise, when the fade-out window has been entered and no fade
interval exists yet, is a fade-out started (`applyFade` toward volume 0
with positive duration `transitionEnd`, which creates a fade timer). -/
def handleTimeUpdate (cfg : Config) (audioId : Nat) (t : ℚ) (s : HookState) :
    HookState × List AudioOp :=
  match cfg.stopAt with
  | none => (s, [])
  | some sa =>
    if sa = 0 then (s, [])
    else
      if sa ≤ t then
        ((cleanup { s with audios := pauseAudio s.audios audioId }).1,
         AudioOp.pause audioId ::
           (cleanup { s with audios := pauseAudio s.audios audioId }).2)
      else
        if 0 < cfg.transitionEnd ∧ sa - cfg.transitionEnd ≤ t ∧
            s.fadeIntervalRef = none then
          ({ s with
              fadeIntervalRef := some s.nextTimerId
              nextTimerId := s.nextTimerId + 1 }, [])
        else (s, [])

/-- `scheduleNextPlay` inside `startRandomPlayback` (source lines 470-478):
arm a fresh single-shot timer whose handle lands in `intervalRef`. -/
def scheduleNextPlay (s : HookState) : HookState :=
  { s with intervalRef := some s.nextTimerId, nextTimerId := s.nextTimerId + 1 }

/-- `startRandomPlayback` (source lines 455-481): if unmounted, return;
clear any pending timer, then schedule the next play. -/
def startRandomPlayback (s : HookState) : HookState :=
  if s.isMounted = false then s
  else scheduleNextPlay { s with intervalRef := none }

/-- `stopRandomPlayback` (source lines 489-494): clear the pending timer
only. -/
def stopRandomPlayback (s : HookState) : HookState :=
  { s with intervalRef := none }

/-- The body of the random-schedule timeout (source lines 472-477): when
still mounted, invoke `playSoundEffect` and then re-arm via
`scheduleNextPlay`. -/
def randomTimerFire (cfg : Config) (env : PlayEnv) (s : HookState) :
    HookState × List AudioOp :=
  if s.isMounted then
    (scheduleNextPlay (playSoundEffect cfg env s).1, (playSoundEffect cfg env s).2)
  else (s, [])

/-- `adjustVolume` (source lines 506-516): clamp, store in the
`currentVolume` state cell, write through to the current audio element if
one exists, and return the clamped value. -/
def adjustVolume (newVolume : ℚ) (s : HookState) : ℚ × HookState :=
  let clampedVolume := clamp01 newVolume
  let s1 := { s with currentVolume := clampedVolume }
  let s2 :=
    match s1.audioRef with
    | some i => { s1 with audios := writeAudioVolume s1.audios i clampedVolume }
    | none => s1
  (clampedVolume, s2)

/-- The fixed number of interpolation steps of `applyFade`
(source line 329). -/
def fadeSteps : Nat := 50

/-- `stepDuration` of `applyFade` (source line 330): the tick interval of
the fade timer, in milliseconds. -/
def stepIntervalMs (duration : ℚ) : ℚ := duration * 1000 / fadeSteps

/-- The volume written by the fade interval on its `k`-th firing
(source lines 339-351): `currentStep` has been incremented to `k`; when
`k ≥ 50` the target volume is written exactly (no clamp) and the timer is
cancelled, otherwise `startVolume + volumeStep * k` is written, clamped
to `[0,1]`. -/
def fadeTickWrite (startVolume targetVolume : ℚ) (k : Nat) : ℚ :=
  if fadeSteps ≤ k then targetVolume
  else clamp01 (startVolume + (targetVolume - startVolume) / 50 * k)

/-- Run the fade interval of `applyFade` for `n` firings: returns the list
of volume writes, the number of `onComplete` invocations, and whether
the timer is still alive (once `currentStep` reaches 50 the interval is
cleared, so later firings never happen). -/
def fadeRunAux (startVolume targetVolume : ℚ) : Nat → List ℚ × Nat × Bool
  | 0 => ([], 0, true)
  | n + 1 =>
    let r := fadeRunAux startVolume targetVolume n
    if r.2.2 then
      if fadeSteps ≤ n + 1 then (r.1 ++ [targetVolume], r.2.1 + 1, false)
      else
        (r.1 ++ [clamp01 (startVolume + (targetVolume - startVolume) / 50 * (n + 1))],
         r.2.1, true)
    else r

/-- Observable outcome of one `applyFade` call. -/
structure FadeResult where
  writes : List ℚ
  completions : Nat
  timerCreated : Bool
  timerAlive : Bool
  deriving DecidableEq, Repr

/-- `applyFade` (source lines 319-354), observed for `ticks` firings of its
interval: when `duration ≤ 0` the target volume is written directly (no
clamp) and `onComplete` runs at once, with no timer; otherwise a
repeating timer drives `fadeRunAux`. -/
def applyFade (currentVolume targetVolume duration : ℚ) (ticks : Nat) :
    FadeResult :=
  if duration ≤ 0 then
    { writes := [targetVolume], completions := 1,
      timerCreated := false, timerAlive := false }
  else
    { writes := (fadeRunAux currentVolume targetVolume ticks).1
      completions := (fadeRunAux currentVolume targetVolume ticks).2.1
      timerCreated := true
      timerAlive := (fadeRunAux currentVolume targetVolume ticks).2.2 }

/-- Interleaved execution for the fade-noninterference property: the fade
has started with `audio.volume = startVolume` captured (source line 327);
before the `k`-th fade tick an arbitrary batch `adjusts k` of
`adjustVolume` calls writes to the element's volume (each write is the
clamped requested value, source line 512); the tick then overwrites the
element's volume with the absolute value `fadeTickWrite` computed from
the captured start volume.  Returns the fade-written volumes, the
element's volumes just before each tick (these do depend on the
interleaved adjustments), and the element's volume after the last
tick. -/
def interleavedFadeAux (startVolume targetVolume : ℚ) (adjusts : Nat → List ℚ) :
    Nat → List ℚ × List ℚ × ℚ
  | 0 => ([], [], startVolume)
  | n + 1 =>
    let r := interleavedFadeAux startVolume targetVolume adjusts n
    let volAfterAdjusts := (adjusts (n + 1)).foldl (fun _ a => clamp01 a) r.2.2
    let w := fadeTickWrite startVolume targetVolume (n + 1)
    (r.1 ++ [w], r.2.1 ++ [volAfterAdjusts], w)

/-- Number of live (created and not paused) audio elements. -/
def liveCount (s : HookState) : Nat :=
  (s.audios.filter fun a => !a.paused).length

/-- The controller invariant: every live element is the one held by
`audioRef`, element ids are pairwise distinct, and all ids are below the
fresh-id counter. -/
def Inv (s : HookState) : Prop :=
  (∀ a ∈ s.audios, a.paused = false → s.audioRef = some a.id) ∧
  (s.audios.map AudioElem.id).Nodup ∧
  (∀ a ∈ s.audios, a.id < s.nextAudioId)

/-- A session is fully torn down: no audio handle, no timers, playing flag
cleared. -/
def tornDown (s : HookState) : Prop :=
  s.audioRef = none ∧ s.isPlaying = false ∧
  s.fadeIntervalRef = none ∧ s.intervalRef = none

/-- Teardown primitives: pausing an element or clearing a timer. -/
def isTeardownOp : AudioOp → Bool
  | .pause _ => true
  | .clearIntervalTimer _ => true
  | .clearFadeTimer _ => true
  | _ => false

/-- Recognise a `pause` operation. -/
def isPauseOp : AudioOp → Bool
  | .pause _ => true
  | _ => false

/-- Recognise a `create` operation. -/
def isCreateOp : AudioOp → Bool
  | .create _ => true
  | _ => false

/-! ## Helper lemmas -/

theorem cleanup_tornDown (s : HookState) : tornDown (cleanup s).1 :=
  ⟨rfl, rfl, rfl, rfl⟩

theorem mem_cleanupTrace_clearInterval (s : HookState) (h : Nat)
    (hs : s.intervalRef = some h) :
    AudioOp.clearIntervalTimer h ∈ (cleanup s).2 := by
  show AudioOp.clearIntervalTimer h ∈ cleanupTrace s
  unfold cleanupTrace
  rw [hs]
  simp

/-! ## Claims -/

/-- C8: `adjustVolume(v)` returns `min(1, max(0, v))` — in particular
`adjustVolume (3/2)` returns 1 and `adjustVolume (-(1/5))` returns 0 —
and the returned value equals the value stored in `currentVolume`
afterwards. -/
theorem c8_adjustVolume_clamps_and_stores :
    ∀ (v : ℚ) (s : HookState),
      (adjustVolume v s).1 = min 1 (max 0 v) ∧
      (adjustVolume v s).2.currentVolume = (adjustVolume v s).1 ∧
      (adjustVolume (3 / 2) s).1 = 1 ∧
      (adjustVolume (-(1 / 5)) s).1 = 0 := by
  intro v s
  refine ⟨rfl, ?_, ?_, ?_⟩
  · rcases s with ⟨au, ar, ir, fr, ip, cv, im, na, nt⟩
    cases ar <;> rfl
  · show clamp01 (3 / 2) = 1
    norm_num [clamp01, min_def, max_def]
  · show clamp01 (-(1 / 5)) = 0
    norm_num [clamp01, min_def, max_def]

/-- C4: the hook performs no configuration validation: an options object
with `transitionEnd` exceeding `stopAt - startFrom`, or with
`minInterval > maxInterval`, resolves to an ordinary configuration and
construction proceeds silently — no configuration error is surfaced,
although the documented invariant (`configValid`) is violated. -/
theorem c4_construction_performs_no_validation :
    resolveConfig { stopAt := some 1, transitionEnd := some 5 } =
      { stopAt := some 1, transitionEnd := 5 } ∧
    configValid (resolveConfig { stopAt := some 1, transitionEnd := some 5 }) = false ∧
    resolveConfig { minInterval := some 10, maxInterval := some 5 } =
      { minInterval := 10, maxInterval := 5 } ∧
    configValid (resolveConfig { minInterval := some 10, maxInterval := some 5 }) = false := by
  refine ⟨rfl, ?_, rfl, ?_⟩ <;> norm_num [configValid, resolveConfig]

/-- C9: the `ended` listener tears a session down only when the element
that fired is still the controller's current handle; a stale `ended`
event from a superseded element leaves the state untouched. -/
theorem c9_stale_ended_event_guard :
    ∀ (s : HookState) (fid : Nat) (lf : Bool),
      (s.audioRef ≠ some fid → endedHandler fid lf s = (s, [])) ∧
      (s.audioRef = some fid → lf = false →
        (endedHandler fid lf s).1.audioRef = none ∧
        (endedHandler fid lf s).1.isPlaying = false) := by
  intro s fid lf
  constructor
  · intro h
    unfold endedHandler
    rw [if_neg]
    rintro ⟨h1, -⟩
    exact h h1
  · intro h1 h2
    unfold endedHandler
    rw [if_pos ⟨h1, h2⟩]
    exact ⟨rfl, rfl⟩

/-- C9 witness: a stale `ended` event (from element 4 while element 3 is
current) changes nothing. -/
theorem c9_stale_ended_event_guard_witness :
    endedHandler 4 false ⟨[], some 3, none, none, true, 1, true, 5, 0⟩ =
      (⟨[], some 3, none, none, true, 1, true, 5, 0⟩, []) :=
  (c9_stale_ended_event_guard ⟨[], some 3, none, none, true, 1, true, 5, 0⟩ 4 false).1
    (by decide)

/-- C5: `play()` never propagates a failure: a constructor throw is caught
and answered by teardown, and the asynchronous resource-error and
play-rejection callbacks both resolve by tearing the session down and
clearing the playing flag.  (In the embedding `playSoundEffect` is a
total function into states — it returns no result value and has no
exceptional exit.) -/
theorem c5_play_failures_resolved_by_teardown :
    ∀ (cfg : Config) (env : PlayEnv) (s sa sb : HookState),
      (env.ctorThrows = true → s.isMounted = true →
        tornDown (playSoundEffect cfg env s).1) ∧
      tornDown (audioErrorHandler sa).1 ∧
      tornDown (playRejectHandler sb).1 := by
  intro cfg env s sa sb
  refine ⟨?_, cleanup_tornDown sa, cleanup_tornDown sb⟩
  intro hthrow hm
  unfold playSoundEffect
  simp only [hm, hthrow, Bool.true_eq_false, if_false, if_true]
  exact cleanup_tornDown _

/-- C5 witness: a constructor throw on a mounted controller leaves a fully
torn-down state. -/
theorem c5_play_failures_resolved_by_teardown_witness :
    tornDown (playSoundEffect {} ⟨true, false⟩
      ⟨[], none, none, none, false, 1, true, 0, 0⟩).1 :=
  (c5_play_failures_resolved_by_teardown {} ⟨true, false⟩
      ⟨[], none, none, none, false, 1, true, 0, 0⟩
      ⟨[], none, none, none, false, 1, true, 0, 0⟩
      ⟨[], none, none, none, false, 1, true, 0, 0⟩).1 rfl rfl

/-- C2 counterexample: with a random-interval timer pending (handle 7), a
manual `stop()` does not leave it unchanged — `stop` routes through
`cleanup`, which clears the pending random timer. -/
theorem c2_counterexample_stop_clears_pending_random_timer :
    (⟨[], none, some 7, none, false, 1, true, 0, 8⟩ : HookState).intervalRef = some 7 ∧
    (stopSoundEffect ⟨[], none, some 7, none, false, 1, true, 0, 8⟩).1.intervalRef = none ∧
    AudioOp.clearIntervalTimer 7 ∈
      (stopSoundEffect ⟨[], none, some 7, none, false, 1, true, 0, 8⟩).2 := by
  refine ⟨rfl, rfl, ?_⟩
  decide

/-- C2 (amended): a manual `stop()` cancels the pending random-interval
timer along with the rest of the teardown (its `cleanup` clears all
timers), and a scheduled play is exactly a normal `playSoundEffect`
invocation (subject to the same teardown rule) followed by re-arming the
schedule. -/
theorem c2_stop_and_schedule_amended :
    ∀ (s : HookState) (h : Nat) (cfg : Config) (env : PlayEnv) (s' : HookState),
      s.intervalRef = some h →
      ((stopSoundEffect s).1.intervalRef = none ∧
       AudioOp.clearIntervalTimer h ∈ (stopSoundEffect s).2 ∧
       tornDown (stopSoundEffect s).1) ∧
      (s'.isMounted = true →
        randomTimerFire cfg env s' =
          (scheduleNextPlay (playSoundEffect cfg env s').1,
           (playSoundEffect cfg env s').2)) := by
  intro s h cfg env s' hs
  constructor
  · exact ⟨rfl, mem_cleanupTrace_clearInterval s h hs, cleanup_tornDown s⟩
  · intro hm
    unfold randomTimerFire
    rw [if_pos hm]

/-- C2 witness: stopping with timer handle 7 pending clears it. -/
theorem c2_stop_and_schedule_amended_witness :
    (stopSoundEffect ⟨[], none, some 7, none, false, 1, true, 0, 8⟩).1.intervalRef = none ∧
    tornDown (stopSoundEffect ⟨[], none, some 7, none, false, 1, true, 0, 8⟩).1 :=
  ⟨((c2_stop_and_schedule_amended ⟨[], none, some 7, none, false, 1, true, 0, 8⟩ 7 {} {}
      ⟨[], none, none, none, false, 1, true, 0, 0⟩) rfl).1.1,
   ((c2_stop_and_schedule_amended ⟨[], none, some 7, none, false, 1, true, 0, 8⟩ 7 {} {}
      ⟨[], none, none, none, false, 1, true, 0, 0⟩) rfl).1.2.2⟩

theorem clamp01_nonneg (x : ℚ) : 0 ≤ clamp01 x :=
  le_min (by norm_num) (le_max_left 0 x)

theorem clamp01_le_one (x : ℚ) : clamp01 x ≤ 1 := min_le_left 1 _

theorem fadeRunAux_eq (s t : ℚ) :
    ∀ n, n ≤ 50 →
      fadeRunAux s t n =
        ((List.range n).map fun i => fadeTickWrite s t (i + 1),
         if n < 50 then 0 else 1,
         decide (n < 50)) := by
  intro n
  induction n with
  | zero => intro _; rfl
  | succ n ih =>
    intro hn
    have hn' : n ≤ 50 := Nat.le_of_succ_le hn
    have hlt : n < 50 := Nat.lt_of_succ_le hn
    have hdec : decide (n < 50) = true := decide_eq_true hlt
    simp only [fadeRunAux, ih hn', hdec, if_true]
    by_cases h50 : fadeSteps ≤ n + 1
    · have h49 : ¬ (n + 1 < 50) := Nat.not_lt.mpr h50
      have hw : fadeTickWrite s t (n + 1) = t := by
        unfold fadeTickWrite
        rw [if_pos h50]
      simp [List.range_succ, hw, hlt, h49, h50, decide_eq_false h49]
    · have h49 : n + 1 < 50 := Nat.lt_of_not_le h50
      have hw : fadeTickWrite s t (n + 1) =
          clamp01 (s + (t - s) / 50 * (n + 1)) := by
        unfold fadeTickWrite
        rw [if_neg h50]
        push_cast
        ring_nf
      simp [List.range_succ, hw, hlt, h49, h50, decide_eq_true h49]

theorem fade_writes_get (s t : ℚ) (k : Nat) (hk : k < 50) :
    ((fadeRunAux s t 50).1)[k]? = some (fadeTickWrite s t (k + 1)) := by
  rw [fadeRunAux_eq s t 50 le_rfl]
  simp [List.getElem?_map, List.getElem?_range, hk]

theorem fadeRunAux_writes_shape (s t : ℚ) :
    ∀ n, ∀ w ∈ (fadeRunAux s t n).1, w = t ∨ ∃ x, w = clamp01 x := by
  intro n
  induction n with
  | zero => intro w hw; simp [fadeRunAux] at hw
  | succ n ih =>
    intro w hw
    simp only [fadeRunAux] at hw
    split at hw
    · split at hw
      · rcases List.mem_append.mp hw with h | h
        · exact ih w h
        · left; simpa using h
      · rcases List.mem_append.mp hw with h | h
        · exact ih w h
        · right; exact ⟨_, by simpa using h⟩
    · exact ih w hw

theorem interleavedFadeAux_writes_eq (sv tv : ℚ) (adjusts : Nat → List ℚ) :
    ∀ n, (interleavedFadeAux sv tv adjusts n).1 =
      (List.range n).map fun i => fadeTickWrite sv tv (i + 1) := by
  intro n
  induction n with
  | zero => rfl
  | succ n ih =>
    simp only [interleavedFadeAux]
    rw [ih, List.range_succ]
    simp

theorem interleavedFadeAux_final (sv tv : ℚ) (adjusts : Nat → List ℚ) (n : Nat) :
    (interleavedFadeAux sv tv adjusts (n + 1)).2.2 = fadeTickWrite sv tv (n + 1) :=
  rfl

/-- C6: for a fade with positive duration the fader uses exactly 50 steps
at interval `durationSec*1000/50` milliseconds; the `k`-th tick for
`1 ≤ k < 50` writes `clamp01 (s + k*(t-s)/50)`; the 50th tick writes the
target exactly, cancels the timer, and invokes `onComplete` exactly
once. -/
theorem c6_fade_interpolation :
    ∀ (s t d : ℚ), 0 < d →
      fadeSteps = 50 ∧
      stepIntervalMs d = d * 1000 / 50 ∧
      (applyFade s t d 50).timerCreated = true ∧
      (∀ k : Nat, 1 ≤ k → k < 50 →
        (applyFade s t d 50).writes[k - 1]? =
          some (clamp01 (s + k * (t - s) / 50))) ∧
      (applyFade s t d 50).writes[49]? = some t ∧
      (applyFade s t d 50).completions = 1 ∧
      (applyFade s t d 50).timerAlive = false := by
  intro s t d hd
  have hd' : ¬ d ≤ 0 := not_le.mpr hd
  have happ : applyFade s t d 50 =
      { writes := (fadeRunAux s t 50).1
        completions := (fadeRunAux s t 50).2.1
        timerCreated := true
        timerAlive := (fadeRunAux s t 50).2.2 } := by
    unfold applyFade
    rw [if_neg hd']
  refine ⟨rfl, by norm_num [stepIntervalMs, fadeSteps], ?_, ?_, ?_, ?_, ?_⟩
  · rw [happ]
  · intro k hk1 hk50
    rw [happ]
    show ((fadeRunAux s t 50).1)[k - 1]? = _
    have hk' : k - 1 < 50 := lt_of_le_of_lt (Nat.sub_le k 1) hk50
    rw [fade_writes_get s t (k - 1) hk']
    have hsk : k - 1 + 1 = k := Nat.sub_add_cancel hk1
    rw [hsk]
    have hnle : ¬ fadeSteps ≤ k := Nat.not_le.mpr hk50
    unfold fadeTickWrite
    rw [if_neg hnle]
    congr 1
    congr 1
    ring
  · rw [happ]
    show ((fadeRunAux s t 50).1)[49]? = _
    rw [fade_writes_get s t 49 (by norm_num)]
    norm_num [fadeTickWrite, fadeSteps]
  · rw [happ]
    show (fadeRunAux s t 50).2.1 = 1
    rw [fadeRunAux_eq s t 50 le_rfl]
    simp
  · rw [happ]
    show (fadeRunAux s t 50).2.2 = false
    rw [fadeRunAux_eq s t 50 le_rfl]
    simp

/-- C6 witness: concrete fade from 0 to 1 over 1 second: one completion,
final write is the target. -/
theorem c6_fade_interpolation_witness :
    (applyFade 0 1 1 50).completions = 1 ∧
    (applyFade 0 1 1 50).writes[49]? = some 1 :=
  ⟨(c6_fade_interpolation 0 1 1 (by norm_num)).2.2.2.2.2.1,
   (c6_fade_interpolation 0 1 1 (by norm_num)).2.2.2.2.1⟩

/-- C7 counterexample: with requested target 3/2, the fader's 50th tick
writes 3/2 — a volume write outside [0,1], because the final write
(source line 342) is not clamped. -/
theorem c7_counterexample_unclamped_final_write :
    (applyFade 0 (3 / 2) 1 50).writes[49]? = some (3 / 2) ∧
    ¬ ((3 / 2 : ℚ) ≤ 1) := by
  constructor
  · have hd' : ¬ (1 : ℚ) ≤ 0 := by norm_num
    unfold applyFade
    rw [if_neg hd']
    show ((fadeRunAux 0 (3 / 2) 50).1)[49]? = _
    rw [fade_writes_get 0 (3 / 2) 49 (by norm_num)]
    norm_num [fadeTickWrite, fadeSteps]
  · norm_num

/-- C7 (amended): every write the fader performs is either a clamped
intermediate value (hence within [0,1] regardless of the requested
target) or the raw requested target itself (the final tick write and the
degenerate zero-duration write are not clamped); consequently all fader
writes lie within [0,1] whenever the requested target does. -/
theorem c7_fade_write_clamping_amended :
    ∀ (s t d : ℚ) (n : Nat),
      (∀ w ∈ (applyFade s t d n).writes, w = t ∨ (0 ≤ w ∧ w ≤ 1)) ∧
      (0 ≤ t → t ≤ 1 → ∀ w ∈ (applyFade s t d n).writes, 0 ≤ w ∧ w ≤ 1) := by
  intro s t d n
  have hshape : ∀ w ∈ (applyFade s t d n).writes, w = t ∨ ∃ x, w = clamp01 x := by
    unfold applyFade
    split
    · intro w hw
      left
      simpa using hw
    · intro w hw
      exact fadeRunAux_writes_shape s t n w hw
  constructor
  · intro w hw
    rcases hshape w hw with h | ⟨x, hx⟩
    · exact Or.inl h
    · exact Or.inr ⟨hx ▸ clamp01_nonneg x, hx ▸ clamp01_le_one x⟩
  · intro ht0 ht1 w hw
    rcases hshape w hw with h | ⟨x, hx⟩
    · rw [h]; exact ⟨ht0, ht1⟩
    · exact ⟨hx ▸ clamp01_nonneg x, hx ▸ clamp01_le_one x⟩

/-- C7 amended witness: for the in-range target 1/2 the degenerate write
is within bounds. -/
theorem c7_fade_write_clamping_amended_witness :
    0 ≤ (1 / 2 : ℚ) ∧ (1 / 2 : ℚ) ≤ 1 :=
  (c7_fade_write_clamping_amended 0 (1 / 2) 0 0).2 (by norm_num) (by norm_num)
    (1 / 2) (by norm_num [applyFade])

/-- C10: fade noninterference — each fade tick writes the absolute value
computed from the volume captured at fade start, so two interleaved
executions that differ only in the `adjustVolume` calls between ticks
produce the identical sequence of fade-written volumes, and the full
fade ends on the target volume in both. -/
theorem c10_fade_noninterference :
    ∀ (sv tv : ℚ) (a a' : Nat → List ℚ) (n : Nat),
      (interleavedFadeAux sv tv a n).1 = (interleavedFadeAux sv tv a' n).1 ∧
      (∀ k : Nat, ((interleavedFadeAux sv tv a n).1)[k]? =
        if k < n then some (fadeTickWrite sv tv (k + 1)) else none) ∧
      (interleavedFadeAux sv tv a 50).2.2 = (interleavedFadeAux sv tv a' 50).2.2 ∧
      (interleavedFadeAux sv tv a 50).2.2 = tv := by
  intro sv tv a a' n
  refine ⟨?_, ?_, ?_, ?_⟩
  · rw [interleavedFadeAux_writes_eq, interleavedFadeAux_writes_eq]
  · intro k
    rw [interleavedFadeAux_writes_eq]
    by_cases hk : k < n
    · simp [List.getElem?_map, List.getElem?_range, hk]
    · have hnone : (List.range n)[k]? = none :=
        List.getElem?_eq_none (by simpa using Nat.le_of_not_lt hk)
      simp [List.getElem?_map, hnone, hk]
  · rw [interleavedFadeAux_final, interleavedFadeAux_final]
  · rw [interleavedFadeAux_final]
    norm_num [fadeTickWrite, fadeSteps]

theorem map_update_id (l : List AudioElem) (i : Nat) (g : AudioElem → AudioElem)
    (hg : ∀ a, (g a).id = a.id) :
    (l.map fun a => if a.id = i then g a else a).map AudioElem.id =
      l.map AudioElem.id := by
  rw [List.map_map]
  refine List.map_congr_left ?_
  intro a _
  simp only [Function.comp]
  split
  · exact hg a
  · rfl

theorem mem_update_elim {l : List AudioElem} {i : Nat} {g : AudioElem → AudioElem}
    {a : AudioElem}
    (ha : a ∈ l.map fun b => if b.id = i then g b else b) :
    ∃ b ∈ l, a = if b.id = i then g b else b := by
  rcases List.mem_map.mp ha with ⟨b, hb, he⟩
  exact ⟨b, hb, he.symm⟩

theorem forall_mem_update {l : List AudioElem} {i : Nat} {g : AudioElem → AudioElem}
    {P : AudioElem → Prop}
    (hl : ∀ b ∈ l, P (if b.id = i then g b else b)) :
    ∀ a ∈ l.map fun b => if b.id = i then g b else b, P a := by
  intro a ha
  rcases mem_update_elim ha with ⟨b, hb, he⟩
  rw [he]
  exact hl b hb

theorem cleanupAudios_map_id (s : HookState) :
    (cleanupAudios s).map AudioElem.id = s.audios.map AudioElem.id := by
  unfold cleanupAudios
  cases hs : s.audioRef with
  | none => rfl
  | some i => exact map_update_id s.audios i _ (fun a => rfl)

theorem cleanup_all_paused (s : HookState) (h : Inv s) :
    ∀ a ∈ (cleanup s).1.audios, a.paused = true := by
  intro a ha
  by_contra hp
  simp only [Bool.not_eq_true] at hp
  have ha' : a ∈ cleanupAudios s := ha
  unfold cleanupAudios at ha'
  cases hs : s.audioRef with
  | none =>
    rw [hs] at ha'
    have := h.1 a ha' hp
    rw [hs] at this
    exact Option.noConfusion this
  | some i =>
    rw [hs] at ha'
    rcases mem_update_elim ha' with ⟨b, hb, he⟩
    by_cases hid : b.id = i
    · rw [he, if_pos hid] at hp
      exact Bool.noConfusion hp
    · rw [he, if_neg hid] at hp
      have h2 := h.1 b hb hp
      rw [hs] at h2
      exact hid (Option.some.inj h2).symm

theorem cleanupAudios_id_lt (s : HookState) (h : Inv s) :
    ∀ a ∈ cleanupAudios s, a.id < s.nextAudioId := by
  intro a ha
  unfold cleanupAudios at ha
  cases hs : s.audioRef with
  | none => rw [hs] at ha; exact h.2.2 a ha
  | some i =>
    rw [hs] at ha
    rcases mem_update_elim ha with ⟨b, hb, he⟩
    have hid : a.id = b.id := by
      rw [he]
      split <;> rfl
    rw [hid]
    exact h.2.2 b hb

theorem inv_cleanup (s : HookState) (h : Inv s) : Inv (cleanup s).1 := by
  refine ⟨?_, ?_, ?_⟩
  · intro a ha hp
    have := cleanup_all_paused s h a ha
    rw [this] at hp
    exact Bool.noConfusion hp
  · show ((cleanupAudios s).map AudioElem.id).Nodup
    rw [cleanupAudios_map_id]
    exact h.2.1
  · intro a ha
    exact cleanupAudios_id_lt s h a ha

theorem play_audios_facts (C : List AudioElem) (N : Nat) (v : ℚ)
    (hpaused : ∀ a ∈ C, a.paused = true)
    (hlt : ∀ a ∈ C, a.id < N)
    (hnodup : (C.map AudioElem.id).Nodup) :
    (∀ a ∈ writeAudioVolume
        (C ++ [({ id := N, paused := true, volume := 1 } : AudioElem)]) N v,
      a.paused = false → a.id = N) ∧
    ((writeAudioVolume
        (C ++ [({ id := N, paused := true, volume := 1 } : AudioElem)]) N v).map
      AudioElem.id).Nodup ∧
    (∀ a ∈ writeAudioVolume
        (C ++ [({ id := N, paused := true, volume := 1 } : AudioElem)]) N v,
      a.id < N + 1) ∧
    (∀ a ∈ unpauseAudio (writeAudioVolume
        (C ++ [({ id := N, paused := true, volume := 1 } : AudioElem)]) N v) N,
      a.paused = false → a.id = N) ∧
    ((unpauseAudio (writeAudioVolume
        (C ++ [({ id := N, paused := true, volume := 1 } : AudioElem)]) N v) N).map
      AudioElem.id).Nodup ∧
    (∀ a ∈ unpauseAudio (writeAudioVolume
        (C ++ [({ id := N, paused := true, volume := 1 } : AudioElem)]) N v) N,
      a.id < N + 1) := by
  have hA2p : ∀ a ∈ C ++ [({ id := N, paused := true, volume := 1 } : AudioElem)],
      a.paused = true := by
    intro a ha
    rcases List.mem_append.mp ha with h | h
    · exact hpaused a h
    · rw [List.mem_singleton.mp h]
  have hA3p : ∀ a ∈ writeAudioVolume
      (C ++ [({ id := N, paused := true, volume := 1 } : AudioElem)]) N v,
      a.paused = true := by
    refine forall_mem_update ?_
    intro b hb
    by_cases hid : b.id = N
    · rw [if_pos hid]
      exact hA2p b hb
    · rw [if_neg hid]
      exact hA2p b hb
  have hA2ids : (C ++ [({ id := N, paused := true, volume := 1 } : AudioElem)]).map
      AudioElem.id = C.map AudioElem.id ++ [N] := by
    rw [List.map_append]
    rfl
  have hA3ids : (writeAudioVolume
      (C ++ [({ id := N, paused := true, volume := 1 } : AudioElem)]) N v).map
      AudioElem.id = C.map AudioElem.id ++ [N] := by
    unfold writeAudioVolume
    rw [map_update_id _ _ (fun a => { a with volume := v }) (fun a => rfl)]
    exact hA2ids
  have hA4ids : (unpauseAudio (writeAudioVolume
      (C ++ [({ id := N, paused := true, volume := 1 } : AudioElem)]) N v) N).map
      AudioElem.id = C.map AudioElem.id ++ [N] := by
    unfold unpauseAudio
    rw [map_update_id _ _ (fun a => { a with paused := false }) (fun a => rfl)]
    exact hA3ids
  have hndBase : (C.map AudioElem.id ++ [N]).Nodup := by
    rw [List.nodup_append]
    refine ⟨hnodup, List.nodup_singleton N, ?_⟩
    intro x hx hx'
    rcases List.mem_map.mp hx with ⟨b, hb, he⟩
    have h1 : x < N := he ▸ hlt b hb
    have h2 : x = N := List.mem_singleton.mp hx'
    omega
  have hltBase : ∀ (l : List AudioElem),
      l.map AudioElem.id = C.map AudioElem.id ++ [N] → ∀ a ∈ l, a.id < N + 1 := by
    intro l hl a ha
    have : a.id ∈ C.map AudioElem.id ++ [N] := by
      rw [← hl]
      exact List.mem_map.mpr ⟨a, ha, rfl⟩
    rcases List.mem_append.mp this with h | h
    · rcases List.mem_map.mp h with ⟨b, hb, he⟩
      have := hlt b hb
      omega
    · have := List.mem_singleton.mp h
      omega
  refine ⟨?_, ?_, ?_, ?_, ?_, ?_⟩
  · intro a ha hp
    rw [hA3p a ha] at hp
    exact Bool.noConfusion hp
  · rw [hA3ids]; exact hndBase
  · exact hltBase _ hA3ids
  · refine forall_mem_update ?_
    intro b hb
    by_cases hid : b.id = N
    · rw [if_pos hid]
      intro _
      exact hid
    · rw [if_neg hid]
      intro hp
      rw [hA3p b hb] at hp
      exact Bool.noConfusion hp
  · rw [hA4ids]; exact hndBase
  · exact hltBase _ hA4ids

theorem liveCount_le_one (s : HookState) (h : Inv s) : liveCount s ≤ 1 := by
  unfold liveCount
  rcases h with ⟨hlive, hnodup, -⟩
  rcases hfl : s.audios.filter (fun a => !a.paused) with - | ⟨a, - | ⟨b, l2⟩⟩
  · simp [hfl]
  · simp [hfl]
  · exfalso
    have hsub : ((s.audios.filter fun a => !a.paused).map AudioElem.id).Sublist
        (s.audios.map AudioElem.id) := (List.filter_sublist _).map _
    have hnd := hnodup.sublist hsub
    rw [hfl] at hnd
    have hane : a.id ≠ b.id := by
      rcases List.nodup_cons.mp hnd with ⟨hnmem, -⟩
      intro he
      exact hnmem (he ▸ List.mem_cons_self _ _)
    have haf : a ∈ s.audios.filter fun x => !x.paused := by
      rw [hfl]; exact List.mem_cons_self _ _
    have hbf : b ∈ s.audios.filter fun x => !x.paused := by
      rw [hfl]; exact List.mem_cons_of_mem _ (List.mem_cons_self _ _)
    have hamem := List.mem_filter.mp haf
    have hbmem := List.mem_filter.mp hbf
    have hap : a.paused = false := by simpa using hamem.2
    have hbp : b.paused = false := by simpa using hbmem.2
    have h1 := hlive a hamem.1 hap
    have h2 := hlive b hbmem.1 hbp
    rw [h1] at h2
    exact hane (Option.some.inj h2)

theorem inv_playSoundEffect (cfg : Config) (env : PlayEnv) (s : HookState)
    (h : Inv s) : Inv (playSoundEffect cfg env s).1 := by
  unfold playSoundEffect
  by_cases hm : s.isMounted = false
  · rw [if_pos hm]
    exact h
  · rw [if_neg hm]
    by_cases ht : env.ctorThrows = true
    · simp only [ht, if_true]
      exact inv_cleanup _ (inv_cleanup s h)
    · simp only [ht, if_false]
      have hfacts := play_audios_facts (cleanupAudios s) s.nextAudioId
        (if 0 < cfg.transitionStart then 0 else clamp01 (cleanup s).1.currentVolume)
        (cleanup_all_paused s h)
        (cleanupAudios_id_lt s h)
        (by rw [cleanupAudios_map_id]; exact h.2.1)
      by_cases hr : env.playRejects = true
      · simp only [hr, if_true]
        refine ⟨?_, hfacts.2.1, ?_⟩
        · intro a ha hp
          exact congrArg some (hfacts.1 a ha hp).symm
        · intro a ha
          exact hfacts.2.2.1 a ha
      · simp only [hr, if_false]
        refine ⟨?_, hfacts.2.2.2.2.1, ?_⟩
        · intro a ha hp
          exact congrArg some (hfacts.2.2.2.1 a ha hp).symm
        · intro a ha
          exact hfacts.2.2.2.2.2 a ha

theorem cleanupTrace_teardown (s : HookState) :
    ∀ op ∈ (cleanup s).2, isTeardownOp op = true := by
  intro op hop
  have hop' : op ∈ cleanupTrace s := hop
  unfold cleanupTrace at hop'
  rcases List.mem_append.mp hop' with h12 | h3
  · rcases List.mem_append.mp h12 with h1 | h2
    · cases hs : s.audioRef with
      | none => rw [hs] at h1; exact absurd h1 (List.not_mem_nil op)
      | some i =>
        rw [hs] at h1
        rw [List.mem_singleton.mp h1]
        rfl
    · cases hs : s.intervalRef with
      | none => rw [hs] at h2; exact absurd h2 (List.not_mem_nil op)
      | some i =>
        rw [hs] at h2
        rw [List.mem_singleton.mp h2]
        rfl
  · cases hs : s.fadeIntervalRef with
    | none => rw [hs] at h3; exact absurd h3 (List.not_mem_nil op)
    | some i =>
      rw [hs] at h3
      rw [List.mem_singleton.mp h3]
      rfl

/-- C1: at-most-one-session invariant — under the controller invariant,
after `play()` at most one live audio element exists, after two
back-to-back `play()` calls still at most one, and the emitted operation
trace splits into a teardown prefix (pauses and timer clears of the
previous session) followed by a suffix containing no pause or clear, so
the previous session is paused and its timers cleared before the new
element is created. -/
theorem c1_at_most_one_live_session :
    ∀ (cfg : Config) (env env' : PlayEnv) (s : HookState), Inv s →
      Inv (playSoundEffect cfg env s).1 ∧
      liveCount (playSoundEffect cfg env s).1 ≤ 1 ∧
      liveCount (playSoundEffect cfg env' (playSoundEffect cfg env s).1).1 ≤ 1 ∧
      ∃ pre post,
        (playSoundEffect cfg env s).2 = pre ++ post ∧
        (∀ op ∈ pre, isTeardownOp op = true) ∧
        (∀ op ∈ post, isPauseOp op = false ∧ isTeardownOp op = false) := by
  intro cfg env env' s h
  have h1 := inv_playSoundEffect cfg env s h
  have h2 := inv_playSoundEffect cfg env' _ h1
  refine ⟨h1, liveCount_le_one _ h1, liveCount_le_one _ h2, ?_⟩
  unfold playSoundEffect
  by_cases hm : s.isMounted = false
  · rw [if_pos hm]
    exact ⟨[], [], rfl, by intro op hop; exact absurd hop (List.not_mem_nil op),
      by intro op hop; exact absurd hop (List.not_mem_nil op)⟩
  · rw [if_neg hm]
    by_cases ht : env.ctorThrows = true
    · simp only [ht, if_true]
      refine ⟨(cleanup s).2 ++ (cleanup (cleanup s).1).2, [], by simp, ?_, ?_⟩
      · intro op hop
        rcases List.mem_append.mp hop with hl | hr
        · exact cleanupTrace_teardown s op hl
        · exact cleanupTrace_teardown _ op hr
      · intro op hop
        exact absurd hop (List.not_mem_nil op)
    · simp only [ht, if_false]
      refine ⟨(cleanup s).2,
        [AudioOp.create s.nextAudioId,
         AudioOp.setCurrentTime s.nextAudioId cfg.startFrom,
         AudioOp.setVolume s.nextAudioId
           (if 0 < cfg.transitionStart then 0 else clamp01 (cleanup s).1.currentVolume),
         AudioOp.playCall s.nextAudioId], rfl,
        cleanupTrace_teardown s, ?_⟩
      intro op hop
      rcases List.mem_cons.mp hop with he | hop
      · rw [he]; exact ⟨rfl, rfl⟩
      rcases List.mem_cons.mp hop with he | hop
      · rw [he]; exact ⟨rfl, rfl⟩
      rcases List.mem_cons.mp hop with he | hop
      · rw [he]; exact ⟨rfl, rfl⟩
      rcases List.mem_cons.mp hop with he | hop
      · rw [he]; exact ⟨rfl, rfl⟩
      exact absurd hop (List.not_mem_nil op)

/-- C1 witness: from the freshly mounted state, one `play()` leaves at
most one live element. -/
theorem c1_at_most_one_live_session_witness :
    liveCount (playSoundEffect {} {} ⟨[], none, none, none, false, 1, true, 0, 0⟩).1 ≤ 1 :=
  (c1_at_most_one_live_session {} {} {} ⟨[], none, none, none, false, 1, true, 0, 0⟩
    (by unfold Inv; refine ⟨?_, ?_, ?_⟩ <;> simp)).2.1

/-- C3 counterexample: with `stopAt = 10`, `transitionEnd = 2` and a
fade-out already in progress (fade timer handle 5 live), a position tick
at exactly `stopAt` does trigger a second, abrupt stop: the handler
pauses the element and tears the session down itself, instead of leaving
completion to the fade. -/
theorem c3_counterexample_abrupt_stop_during_fade :
    (⟨[⟨0, false, 1⟩], some 0, none, some 5, true, 1, true, 1, 6⟩ :
        HookState).fadeIntervalRef = some 5 ∧
    (handleTimeUpdate { stopAt := some 10, transitionEnd := 2 } 0 10
        ⟨[⟨0, false, 1⟩], some 0, none, some 5, true, 1, true, 1, 6⟩).2 =
      [AudioOp.pause 0, AudioOp.pause 0, AudioOp.clearFadeTimer 5] ∧
    (handleTimeUpdate { stopAt := some 10, transitionEnd := 2 } 0 10
        ⟨[⟨0, false, 1⟩], some 0, none, some 5, true, 1, true, 1, 6⟩).1.isPlaying =
      false ∧
    (handleTimeUpdate { stopAt := some 10, transitionEnd := 2 } 0 10
        ⟨[⟨0, false, 1⟩], some 0, none, some 5, true, 1, true, 1, 6⟩).1.fadeIntervalRef =
      none := by
  have h10 : ¬ (10 : ℚ) = 0 := by norm_num
  have hle : (10 : ℚ) ≤ 10 := le_refl 10
  refine ⟨rfl, ?_, ?_, ?_⟩ <;>
    simp [handleTimeUpdate, h10, hle, cleanup, cleanupTrace, cleanupAudios, pauseAudio]

/-- C3 (amended): once `stopAt` (≠ 0) is configured, a position tick with
position ≥ `stopAt` pauses and tears the session down immediately — even
while a fade-out is in progress the `shouldStop` branch takes priority —
whereas a tick before `stopAt` with a fade already running changes
nothing (no second fade, no stop). -/
theorem c3_stop_priority_amended :
    ∀ (cfg : Config) (sa : ℚ) (s : HookState) (audioId : Nat) (t : ℚ) (fh : Nat),
      cfg.stopAt = some sa → sa ≠ 0 →
      (sa ≤ t →
        (handleTimeUpdate cfg audioId t s).1.isPlaying = false ∧
        (handleTimeUpdate cfg audioId t s).1.audioRef = none ∧
        (handleTimeUpdate cfg audioId t s).1.fadeIntervalRef = none ∧
        (handleTimeUpdate cfg audioId t s).2 =
          AudioOp.pause audioId ::
            (cleanup { s with audios := pauseAudio s.audios audioId }).2) ∧
      (s.fadeIntervalRef = some fh → t < sa →
        handleTimeUpdate cfg audioId t s = (s, [])) := by
  intro cfg sa s audioId t fh hsa h0
  unfold handleTimeUpdate
  simp only [hsa]
  rw [if_neg h0]
  constructor
  · intro hts
    rw [if_pos hts]
    exact ⟨rfl, rfl, rfl, rfl⟩
  · intro hfade hlt
    rw [if_neg (not_le.mpr hlt)]
    have hcond : ¬ (0 < cfg.transitionEnd ∧ sa - cfg.transitionEnd ≤ t ∧
        s.fadeIntervalRef = none) := by
      rintro ⟨-, -, hnone⟩
      rw [hfade] at hnone
      exact Option.noConfusion hnone
    rw [if_neg hcond]

/-- C3 amended witness: a tick at position 5 (before `stopAt = 10`) with a
fade in progress is a no-op. -/
theorem c3_stop_priority_amended_witness :
    handleTimeUpdate { stopAt := some 10, transitionEnd := 2 } 0 5
      ⟨[⟨0, false, 1⟩], some 0, none, some 5, true, 1, true, 1, 6⟩ =
      (⟨[⟨0, false, 1⟩], some 0, none, some 5, true, 1, true, 1, 6⟩, []) :=
  ((c3_stop_priority_amended { stopAt := some 10, transitionEnd := 2 } 10
      ⟨[⟨0, false, 1⟩], some 0, none, some 5, true, 1, true, 1, 6⟩ 0 5 5 rfl
      (by norm_num)).2) rfl (by norm_num)

end UseSoundEffect
